import Mathlib

/-!
# Verification of the Swap Payload cryptographic core (`crypto/src/swap.rs`)

This file shallowly embeds the swap payload codec and two-layer hybrid
encryption scheme of `crypto/src/swap.rs` and proves the specified
properties about it.

Conventions of the embedding:

* A Rust `u8` is `Fin 256`; byte buffers are `List Byte`, fixed-size
  arrays `[u8; n]` are length-constrained subtypes.
* A Rust `u64` is `Fin (2 ^ 64)`.
* Fallible operations return `Except`/`Option`; a Rust `.expect(..)` panic
  is modelled by an `Option` whose `none` case is the panic.
* Consumed external primitives (the decaf377 group, Blake2b, the
  ChaCha20-Poly1305 AEAD) and crate modules not present in the sources
  (`crate::ka`, `crate::asset`, `crate::transaction::Fee`,
  `crate::keys::OutgoingViewingKey`) are modelled from the specification's
  interface descriptions, executably, each marked `Modelled from the spec`.
-/

deriving instance DecidableEq for Except

/-- A byte (`u8`). -/
abbrev Byte := Fin 256

/-- A `[u8; 32]` buffer. -/
abbrev Bytes32 := { l : List Byte // l.length = 32 }

/-- Little-endian encoding of a natural number into `k` bytes
(the layout used by `u64::to_le_bytes` and by the scalar/group encodings). -/
def leBytes : Nat → Nat → List Byte
  | 0, _ => []
  | k + 1, n => ⟨n % 256, Nat.mod_lt _ (by decide)⟩ :: leBytes k (n / 256)

/-- Little-endian decoding of a byte buffer (`u64::from_le_bytes` and the
scalar/group decodings). -/
def parseLE : List Byte → Nat
  | [] => 0
  | b :: rest => b.val + 256 * parseLE rest

theorem length_leBytes (k n : Nat) : (leBytes k n).length = k := by
  induction k generalizing n with
  | zero => rfl
  | succ k ih => simp [leBytes, ih]

theorem parseLE_leBytes (k n : Nat) (h : n < 256 ^ k) : parseLE (leBytes k n) = n := by
  induction k generalizing n with
  | zero => simp [pow_zero, Nat.lt_one_iff] at h; simp [leBytes, parseLE, h]
  | succ k ih =>
      have hdiv : n / 256 < 256 ^ k := by
        rw [Nat.div_lt_iff_lt_mul (by norm_num)]
        calc n < 256 ^ (k + 1) := h
        _ = 256 ^ k * 256 := by ring
      simp only [leBytes, parseLE, ih (n / 256) hdiv]
      omega

/-- The sub-buffer `l[a..b]` of a byte slice. -/
def sliceOf (l : List Byte) (a b : Nat) : List Byte := (l.drop a).take (b - a)

theorem sliceOf_exact (pre mid post : List Byte) (a b : Nat)
    (h1 : pre.length = a) (h2 : mid.length = b - a) :
    sliceOf (pre ++ (mid ++ post)) a b = mid := by
  unfold sliceOf
  rw [List.drop_left' h1, List.take_left' h2]

theorem length_sliceOf (l : List Byte) (a b : Nat) (hb : b ≤ l.length) (hab : a ≤ b) :
    (sliceOf l a b).length = b - a := by
  unfold sliceOf
  rw [List.length_take, List.length_drop]
  omega

/-! ## Blake2b model

Modelled from the spec: "Both KDFs use Blake2b with explicit 32-octet
output length, in keyed-personalization-free mode (plain update-stream)."
The hash is an executable stand-in: a deterministic mixing function of the
full absorbed input stream; the streaming state (`blake2b_simd::State`)
records the absorbed bytes, `update` appends, `finalize` hashes them. -/

/-- One step of the stand-in byte-mixing function. -/
def absorbByte (acc : Nat) (b : Byte) : Nat := (acc * 257 + b.val + 1) % 2 ^ 64

/-- Modelled from the spec: Blake2b with explicit output length `outLen`
octets over a plain update-stream. -/
def blake2bHash (outLen : Nat) (input : List Byte) : List Byte :=
  (List.range outLen).map fun i =>
    ⟨(input.foldl absorbByte (i + 1)) % 256, Nat.mod_lt _ (by decide)⟩

theorem length_blake2bHash (outLen : Nat) (input : List Byte) :
    (blake2bHash outLen input).length = outLen := by
  simp [blake2bHash]

/-- Modelled from the spec: the state of an incremental Blake2b computation
(`blake2b_simd::Params::new().hash_length(n).to_state()`). -/
structure Blake2bState where
  hashLength : Nat
  absorbed : List Byte

/-- `blake2b_simd::State::update`: absorb more input. -/
def Blake2bState.update (s : Blake2bState) (data : List Byte) : Blake2bState :=
  { s with absorbed := s.absorbed ++ data }

/-- `blake2b_simd::State::finalize`: hash of the absorbed stream. -/
def Blake2bState.finalize (s : Blake2bState) : List Byte :=
  blake2bHash s.hashLength s.absorbed

/-! ## ChaCha20-Poly1305 AEAD model

Modelled from the spec: "ChaCha20-Poly1305 IETF with 256-bit key, 96-bit
nonce, 128-bit tag, no AAD"; sealing appends a 16-octet tag
(153 → 169 octets, 64 → 80 octets), opening verifies the tag and fails
with a decryption error otherwise.  The stream cipher is an executable
stand-in: a keystream derived from `(key, nonce)` is added byte-wise mod
256, and the tag is a 16-octet hash of `(key, nonce, ciphertext body)`. -/

/-- Keystream of `len` bytes derived from the key and nonce. -/
def keystream (key nonce : List Byte) (len : Nat) : List Byte :=
  let pad := blake2bHash 32 (key ++ nonce)
  (List.range len).map fun i => pad.getD (i % 32) 0

theorem length_keystream (key nonce : List Byte) (len : Nat) :
    (keystream key nonce len).length = len := by
  simp [keystream]

/-- Encrypt the message body with the keystream. -/
def aeadEncryptBody (key nonce m : List Byte) : List Byte :=
  List.zipWith (fun a b => a + b) m (keystream key nonce m.length)

/-- Decrypt the ciphertext body with the keystream. -/
def aeadDecryptBody (key nonce c : List Byte) : List Byte :=
  List.zipWith (fun a b => a - b) c (keystream key nonce c.length)

/-- The 128-bit (16-octet) authentication tag over the ciphertext body. -/
def aeadTag (key nonce body : List Byte) : List Byte :=
  (blake2bHash 32 (key ++ nonce ++ body)).take 16

/-- `ChaCha20Poly1305::encrypt` (AEAD sealing): ciphertext body followed by
the tag. Infallible for our message sizes, as the source's `.expect` notes. -/
def aeadSeal (key nonce m : List Byte) : List Byte :=
  let body := aeadEncryptBody key nonce m
  body ++ aeadTag key nonce body

/-- `ChaCha20Poly1305::decrypt` (AEAD opening): verify the trailing 16-octet
tag; on success return the decrypted body, on failure `none`. -/
def aeadOpen (key nonce c : List Byte) : Option (List Byte) :=
  if 16 ≤ c.length then
    let body := c.take (c.length - 16)
    let tag := c.drop (c.length - 16)
    if aeadTag key nonce body = tag then some (aeadDecryptBody key nonce body)
    else none
  else none

theorem length_aeadEncryptBody (key nonce m : List Byte) :
    (aeadEncryptBody key nonce m).length = m.length := by
  simp [aeadEncryptBody, List.length_zipWith, length_keystream]

theorem length_aeadSeal (key nonce m : List Byte) :
    (aeadSeal key nonce m).length = m.length + 16 := by
  simp [aeadSeal, List.length_append, length_aeadEncryptBody, aeadTag,
    List.length_take, length_blake2bHash]

theorem zipWith_sub_zipWith_add (m ks : List Byte) (h : ks.length = m.length) :
    List.zipWith (fun a b => a - b) (List.zipWith (fun a b => a + b) m ks) ks = m := by
  induction m generalizing ks with
  | nil => simp
  | cons a m ih =>
      cases ks with
      | nil => simp at h
      | cons k ks =>
          simp only [List.zipWith_cons_cons, add_sub_cancel_right, List.cons.injEq]
          exact ⟨trivial, ih ks (by simpa using h)⟩

/-- AEAD round trip: opening a sealed message under the same key and nonce
recovers the message. -/
theorem aeadOpen_aeadSeal (key nonce m : List Byte) :
    aeadOpen key nonce (aeadSeal key nonce m) = some m := by
  have hbodylen : (aeadEncryptBody key nonce m).length = m.length :=
    length_aeadEncryptBody key nonce m
  have hlen : (aeadSeal key nonce m).length = m.length + 16 := length_aeadSeal key nonce m
  unfold aeadOpen
  rw [hlen]
  rw [if_pos (by omega)]
  have hdrop : m.length + 16 - 16 = m.length := by omega
  rw [hdrop]
  have htake : (aeadSeal key nonce m).take m.length = aeadEncryptBody key nonce m := by
    unfold aeadSeal
    exact List.take_left' hbodylen
  have hdrop2 : (aeadSeal key nonce m).drop m.length
      = aeadTag key nonce (aeadEncryptBody key nonce m) := by
    unfold aeadSeal
    exact List.drop_left' hbodylen
  rw [htake, hdrop2, if_pos rfl]
  congr 1
  unfold aeadDecryptBody
  rw [hbodylen]
  exact zipWith_sub_zipWith_add m (keystream key nonce m.length)
    (length_keystream key nonce m.length)

/-! ## Group and key agreement model

Modelled from the spec: `crate::ka` and the decaf377 group are consumed
interfaces not present in the sources.  The spec describes "a group-based
Diffie-Hellman over a prime-order group" with element
`compress() → [32]` / `decompress([32]) → Element | error`, scalars with
"32-octet canonical little-endian encoding", and `KA.Secret` exposing
`diversified_public(b_d) → KA.Public`, `key_agreement_with(pk) →
SharedSecret`, `to_bytes() → [32]`, `from_bytes([32]) → KA.Secret`.  We
model the group as the integers modulo a fixed 251-bit order, with
compression the canonical 32-octet little-endian encoding of the
representative and decompression its partial inverse. -/

/-- Modelled from the spec: the order of the prime-order group (a fixed
251-bit stand-in for the decaf377 group order). -/
def groupOrder : Nat := 2 ^ 251 - 9

theorem groupOrder_pos : 0 < groupOrder := by decide

theorem groupOrder_lt : groupOrder < 256 ^ 32 := by decide

/-- Modelled from the spec: `decaf377::Element`, a prime-order group element. -/
abbrev GroupElement := Fin groupOrder

/-- Modelled from the spec: `decaf377::Element::compress`, the canonical
32-octet encoding of a group element. -/
def GroupElement.compress (e : GroupElement) : Bytes32 :=
  ⟨leBytes 32 e.val, length_leBytes 32 e.val⟩

/-- Modelled from the spec: `decaf377::Encoding::decompress`, the partial
inverse of compression: parse the 32 little-endian octets and fail unless
they denote a canonical group element. -/
def GroupElement.decompress (b : Bytes32) : Except Unit GroupElement :=
  if h : parseLE b.val < groupOrder then .ok ⟨parseLE b.val, h⟩ else .error ()

theorem decompress_compress (e : GroupElement) :
    GroupElement.decompress e.compress = .ok e := by
  unfold GroupElement.decompress GroupElement.compress
  have hp : parseLE (leBytes 32 e.val) = e.val :=
    parseLE_leBytes 32 e.val (lt_trans e.isLt groupOrder_lt)
  simp only [hp]
  rw [dif_pos e.isLt]

/-- Modelled from the spec: scalar multiplication `s · e` in the
prime-order group (the group written multiplicatively on `Fin groupOrder`
representatives). -/
def scalarMulGroup (s : Nat) (e : GroupElement) : GroupElement :=
  ⟨s * e.val % groupOrder, Nat.mod_lt _ groupOrder_pos⟩

/-- `crate::ka::Public(pub [u8; 32])`: a compressed public key. -/
structure KaPublic where
  bytes : Bytes32
deriving DecidableEq

/-- `crate::ka::SharedSecret`: the 32-octet shared secret view. -/
structure KaSharedSecret where
  bytes : Bytes32
deriving DecidableEq

/-- Modelled from the spec: `crate::ka::Secret`, an ephemeral secret scalar. -/
structure KaSecret where
  scalar : Fin groupOrder
deriving DecidableEq

/-- Modelled from the spec: `ka::Secret::diversified_public`, the
(compressed) ephemeral public `esk · b_d`. -/
def KaSecret.diversified_public (esk : KaSecret) (b_d : GroupElement) : KaPublic :=
  ⟨(scalarMulGroup esk.scalar.val b_d).compress⟩

/-- Modelled from the spec: `ka::Secret::key_agreement_with`, the
Diffie-Hellman agreement `esk · pk`; fails when the public key's 32 octets
do not decompress to a group element. -/
def KaSecret.key_agreement_with (esk : KaSecret) (pk : KaPublic) :
    Except Unit KaSharedSecret :=
  match GroupElement.decompress pk.bytes with
  | .ok p => .ok ⟨(scalarMulGroup esk.scalar.val p).compress⟩
  | .error _ => .error ()

/-- Modelled from the spec: `ka::Secret::to_bytes`, the canonical 32-octet
little-endian scalar encoding. -/
def KaSecret.to_bytes (esk : KaSecret) : Bytes32 :=
  ⟨leBytes 32 esk.scalar.val, length_leBytes 32 esk.scalar.val⟩

/-- Modelled from the spec: `ka::Secret::from_bytes`, reading a scalar back
from its 32-octet little-endian encoding. -/
def KaSecret.from_bytes (b : Bytes32) : KaSecret :=
  ⟨⟨parseLE b.val % groupOrder, Nat.mod_lt _ groupOrder_pos⟩⟩

theorem from_bytes_to_bytes (esk : KaSecret) : KaSecret.from_bytes esk.to_bytes = esk := by
  obtain ⟨s⟩ := esk
  unfold KaSecret.from_bytes KaSecret.to_bytes
  refine congrArg KaSecret.mk (Fin.ext ?_)
  simp only [parseLE_leBytes 32 s.val (lt_trans s.isLt groupOrder_lt)]
  exact Nat.mod_eq_of_lt s.isLt

/-! ## Asset identifiers, trading pair, fee, outgoing viewing key -/

/-- Modelled from the spec: `crate::asset::Id`, "a 32-octet value derived
from an external registry; treated as opaque, equality by bytes". -/
structure AssetId where
  bytes : Bytes32
deriving DecidableEq

/-- Modelled from the spec: the 32-octet byte view of an asset id
(`self.asset_1.0.to_bytes()` in the source). -/
def AssetId.to_bytes (a : AssetId) : Bytes32 := a.bytes

/-- Modelled from the spec: parsing an asset id from a byte slice;
succeeds exactly on 32-octet buffers (the id itself is opaque). -/
def AssetId.tryFromSlice (b : List Byte) : Except Unit AssetId :=
  if h : b.length = 32 then .ok ⟨⟨b, h⟩⟩ else .error ()

/-- `TradingPair`: the ordered pair of asset ids. -/
structure TradingPair where
  asset_1 : AssetId
  asset_2 : AssetId
deriving DecidableEq

/-- `TradingPair::to_bytes`: `asset_1 ‖ asset_2`, 64 octets
(the source writes the two 32-octet encodings into `result[0..32]` and
`result[32..64]`). -/
def TradingPair.to_bytes (tp : TradingPair) : List Byte :=
  tp.asset_1.to_bytes.val ++ tp.asset_2.to_bytes.val

theorem length_tradingPair_to_bytes (tp : TradingPair) : tp.to_bytes.length = 64 := by
  simp [TradingPair.to_bytes, AssetId.to_bytes, tp.asset_1.bytes.property,
    tp.asset_2.bytes.property]

/-- `TryFrom<[u8; 64]> for TradingPair`: split a 64-octet buffer into the
two asset ids. -/
def TradingPair.tryFrom64 (b : { l : List Byte // l.length = 64 }) :
    Except Unit TradingPair :=
  match AssetId.tryFromSlice (sliceOf b.val 0 32), AssetId.tryFromSlice (sliceOf b.val 32 64) with
  | .ok a1, .ok a2 => .ok ⟨a1, a2⟩
  | _, _ => .error ()

/-- Modelled from the spec: `crate::transaction::Fee(pub u64)`,
"64-bit unsigned integer, little-endian on wire". -/
structure Fee where
  amount : Fin (2 ^ 64)
deriving DecidableEq

/-- Modelled from the spec: `crate::keys::OutgoingViewingKey`, "a
sender-held symmetric secret"; its byte view `ovk.0` feeds the `ock` KDF. -/
structure OutgoingViewingKey where
  bytes : Bytes32
deriving DecidableEq

theorem parseLE_lt (l : List Byte) : parseLE l < 256 ^ l.length := by
  induction l with
  | nil => simp [parseLE]
  | cons b rest ih =>
      simp only [parseLE, List.length_cons, pow_succ]
      have hb := b.isLt
      calc b.val + 256 * parseLE rest
          < 256 + 256 * parseLE rest := by omega
        _ ≤ 256 * (parseLE rest + 1) := by ring_nf; omega
        _ ≤ 256 * 256 ^ rest.length := by
            have : parseLE rest + 1 ≤ 256 ^ rest.length := ih
            exact Nat.mul_le_mul_left 256 this
        _ = 256 ^ rest.length * 256 := by ring

/-- `<&[u8]>::try_into` to a fixed-size `[u8; n]` array: succeeds exactly
when the slice has length `n`. -/
def tryIntoLen (n : Nat) (b : List Byte) : Except Unit { l : List Byte // l.length = n } :=
  if h : b.length = n then .ok ⟨b, h⟩ else .error ()

/-- `u64::from_le_bytes`. -/
def u64FromLe (b : { l : List Byte // l.length = 8 }) : Fin (2 ^ 64) :=
  ⟨parseLE b.val, by
    have h := parseLE_lt b.val
    rw [b.property] at h
    exact lt_of_lt_of_le h (by norm_num)⟩

/-! ## The swap payload core (`crypto/src/swap.rs`) -/

/-- `SWAP_CIPHERTEXT_BYTES = 169`. -/
def SWAP_CIPHERTEXT_BYTES : Nat := 169

/-- `SWAP_LEN_BYTES = 153`. -/
def SWAP_LEN_BYTES : Nat := 153

/-- `OVK_WRAPPED_LEN_BYTES = 80`. -/
def OVK_WRAPPED_LEN_BYTES : Nat := 80

/-- `SWAP_ENCRYPTION_NONCE`: the fixed nonce `[0u8; 12]` used for swap
encryption. -/
def SWAP_ENCRYPTION_NONCE : List Byte := List.replicate 12 0

/-- `SWAP_TYPE = 0`: the type octet of the only supported swap type. -/
def SWAP_TYPE : Byte := 0

/-- The `swap::Error` enum. -/
inductive SwapError where
  | SwapTypeUnsupported
  | SwapDeserializationError
  | DecryptionError
deriving DecidableEq

/-- `SwapPlaintext`. -/
structure SwapPlaintext where
  trading_pair : TradingPair
  t1 : Fin (2 ^ 64)
  t2 : Fin (2 ^ 64)
  fee : Fee
  b_d : GroupElement
  pk_d : KaPublic
deriving DecidableEq

/-- `SwapPlaintext::derive_symmetric_key`: Blake2b (32-octet output) of the
update-stream `shared_secret.0` then `epk.0`. -/
def SwapPlaintext.derive_symmetric_key (shared_secret : KaSharedSecret)
    (epk : KaPublic) : List Byte :=
  let kdf : Blake2bState := { hashLength := 32, absorbed := [] }
  let kdf := kdf.update shared_secret.bytes.val
  let kdf := kdf.update epk.bytes.val
  kdf.finalize

/-- `SwapPlaintext::diversified_generator`. -/
def SwapPlaintext.diversified_generator (p : SwapPlaintext) : GroupElement := p.b_d

/-- `SwapPlaintext::transmission_key`. -/
def SwapPlaintext.transmission_key (p : SwapPlaintext) : KaPublic := p.pk_d

/-- `SwapPlaintext::derive_ock`: Blake2b (32-octet output) of the
update-stream `ovk.0` then `epk.0`. -/
def SwapPlaintext.derive_ock (ovk : OutgoingViewingKey) (epk : KaPublic) : List Byte :=
  let kdf : Blake2bState := { hashLength := 32, absorbed := [] }
  let kdf := kdf.update ovk.bytes.val
  let kdf := kdf.update epk.bytes.val
  kdf.finalize

/-- `SwapPlaintext::from_parts`. -/
def SwapPlaintext.from_parts (trading_pair : TradingPair) (t1 t2 : Fin (2 ^ 64))
    (fee : Fee) (b_d : GroupElement) (pk_d : KaPublic) :
    Except SwapError SwapPlaintext :=
  .ok { trading_pair, t1, t2, fee, b_d, pk_d }

/-- `From<&SwapPlaintext> for Vec<u8>`: `vec![SWAP_TYPE]` followed by the
trading pair, the three little-endian `u64`s, `pk_d.0` and the compressed
`b_d`. -/
def SwapPlaintext.toBytesVec (p : SwapPlaintext) : List Byte :=
  SWAP_TYPE ::
    (p.trading_pair.to_bytes ++
      (leBytes 8 p.t1.val ++
        (leBytes 8 p.t2.val ++
          (leBytes 8 p.fee.amount.val ++
            (p.pk_d.bytes.val ++ p.b_d.compress.val)))))

/-- Write `s` over `l[i .. i + s.length]`, the effect of the source's
`bytes[i..j].copy_from_slice(&s)`. -/
def setSlice (l : List Byte) (i : Nat) (s : List Byte) : List Byte :=
  l.take i ++ s ++ l.drop (i + s.length)

/-- `From<&SwapPlaintext> for [u8; SWAP_LEN_BYTES]`: a 153-octet zeroed
array filled slice-by-slice at the §4.1 offsets. -/
def SwapPlaintext.toBytes153 (p : SwapPlaintext) : List Byte :=
  let bytes := List.replicate SWAP_LEN_BYTES (0 : Byte)
  let bytes := bytes.set 0 SWAP_TYPE
  let bytes := setSlice bytes 1 p.trading_pair.to_bytes
  let bytes := setSlice bytes 65 (leBytes 8 p.t1.val)
  let bytes := setSlice bytes 73 (leBytes 8 p.t2.val)
  let bytes := setSlice bytes 81 (leBytes 8 p.fee.amount.val)
  let bytes := setSlice bytes 89 p.pk_d.bytes.val
  let bytes := setSlice bytes 121 p.b_d.compress.val
  bytes

/-- `TryFrom<&[u8]> for SwapPlaintext`: reject wrong lengths, then a
non-zero type octet, then convert each fixed-width sub-slice, failing with
a deserialization error when a sub-slice conversion or the diversified
basepoint decompression fails. -/
def SwapPlaintext.tryFromSlice (bytes : List Byte) : Except SwapError SwapPlaintext :=
  if bytes.length ≠ SWAP_LEN_BYTES then .error .SwapDeserializationError
  else if bytes.getD 0 0 ≠ SWAP_TYPE then .error .SwapTypeUnsupported
  else
    match tryIntoLen 64 (sliceOf bytes 1 65) with
    | .error _ => .error .SwapDeserializationError
    | .ok tp_bytes =>
    match tryIntoLen 8 (sliceOf bytes 65 73) with
    | .error _ => .error .SwapDeserializationError
    | .ok t1_bytes =>
    match tryIntoLen 8 (sliceOf bytes 73 81) with
    | .error _ => .error .SwapDeserializationError
    | .ok t2_bytes =>
    match tryIntoLen 8 (sliceOf bytes 81 89) with
    | .error _ => .error .SwapDeserializationError
    | .ok fee_bytes =>
    match tryIntoLen 32 (sliceOf bytes 89 121) with
    | .error _ => .error .SwapDeserializationError
    | .ok pk_d_bytes =>
    match tryIntoLen 32 (sliceOf bytes 121 153) with
    | .error _ => .error .SwapDeserializationError
    | .ok b_d_bytes =>
    match TradingPair.tryFrom64 tp_bytes with
    | .error _ => .error .SwapDeserializationError
    | .ok tp =>
    match GroupElement.decompress b_d_bytes with
    | .error _ => .error .SwapDeserializationError
    | .ok b_d =>
        SwapPlaintext.from_parts tp (u64FromLe t1_bytes) (u64FromLe t2_bytes)
          ⟨u64FromLe fee_bytes⟩ b_d ⟨pk_d_bytes⟩

/-- `TryFrom<[u8; SWAP_LEN_BYTES]> for SwapPlaintext`: defers to the slice
conversion. -/
def SwapPlaintext.tryFrom153 (bytes : { l : List Byte // l.length = SWAP_LEN_BYTES }) :
    Except SwapError SwapPlaintext :=
  SwapPlaintext.tryFromSlice bytes.val

theorem length_toBytesVec (p : SwapPlaintext) : p.toBytesVec.length = 153 := by
  simp [SwapPlaintext.toBytesVec, length_tradingPair_to_bytes, length_leBytes,
    p.pk_d.bytes.property, p.b_d.compress.property]

/-- `SwapPlaintext::encrypt_key`: wrap `pk_d.0 ‖ esk.to_bytes()` under the
AEAD keyed by `ock = derive_ock(ovk, epk)` with the fixed nonce. -/
def SwapPlaintext.encrypt_key (p : SwapPlaintext) (esk : KaSecret)
    (ovk : OutgoingViewingKey) : List Byte :=
  let epk := esk.diversified_public p.diversified_generator
  let kdf_output := SwapPlaintext.derive_ock ovk epk
  let ock := kdf_output
  let op := p.transmission_key.bytes.val ++ esk.to_bytes.val
  aeadSeal ock SWAP_ENCRYPTION_NONCE op

/-- `SwapCiphertext(pub [u8; SWAP_CIPHERTEXT_BYTES])`. -/
structure SwapCiphertext where
  bytes : { l : List Byte // l.length = SWAP_CIPHERTEXT_BYTES }
deriving DecidableEq

/-- `SwapPlaintext::encrypt`: seal the canonical encoding under the key
derived from the shared secret and `epk` with the fixed nonce; `none`
models the `.expect` panic when key agreement fails. -/
def SwapPlaintext.encrypt (p : SwapPlaintext) (esk : KaSecret) : Option SwapCiphertext :=
  let epk := esk.diversified_public p.diversified_generator
  match esk.key_agreement_with p.transmission_key with
  | .error _ => none
  | .ok shared_secret =>
      let key := SwapPlaintext.derive_symmetric_key shared_secret epk
      let swap_plaintext := p.toBytesVec
      some ⟨⟨aeadSeal key SWAP_ENCRYPTION_NONCE swap_plaintext, by
        rw [length_aeadSeal]
        simp only [swap_plaintext, length_toBytesVec]
        decide⟩⟩

/-- The distinguishable `anyhow` error messages produced by
`SwapCiphertext::decrypt` (the function returns `anyhow::Result`, not
`swap::Error`). -/
inductive DecryptFailure where
  | unableToDecryptSwapCiphertext
  | swapDecryptionResultDidNotFitPlaintextLen
  | unableToConvertSwapPlaintextBytes
deriving DecidableEq

/-- `SwapCiphertext::decrypt`: agree, derive the symmetric key, open the
AEAD, then parse the 153 octets; `none` models the `.expect` panic when
key agreement fails, and each failure is the `anyhow` message the source
attaches at that step. -/
def SwapCiphertext.decrypt (ct : SwapCiphertext) (esk : KaSecret)
    (transmission_key : KaPublic) (diversified_basepoint : GroupElement) :
    Option (Except DecryptFailure SwapPlaintext) :=
  match esk.key_agreement_with transmission_key with
  | .error _ => none
  | .ok shared_secret =>
      let epk := esk.diversified_public diversified_basepoint
      let key := SwapPlaintext.derive_symmetric_key shared_secret epk
      some <|
        match aeadOpen key SWAP_ENCRYPTION_NONCE ct.bytes.val with
        | none => .error .unableToDecryptSwapCiphertext
        | some decryption_result =>
            if decryption_result.length = SWAP_LEN_BYTES then
              match SwapPlaintext.tryFromSlice decryption_result with
              | .ok p => .ok p
              | .error _ => .error .unableToConvertSwapPlaintextBytes
            else .error .swapDecryptionResultDidNotFitPlaintextLen

/-! ## Protobuf bridge (`penumbra_proto::dex` structural representation) -/

/-- `penumbra_proto::transaction::Fee`. -/
structure PbFee where
  amount : Fin (2 ^ 64)
deriving DecidableEq

/-- Modelled from the spec: the protobuf asset id, a variable-length
`bytes` field that must be exactly 32 octets. -/
structure PbAssetId where
  inner : List Byte
deriving DecidableEq

/-- `pb::TradingPair`: both asset fields are optional on the wire. -/
structure PbTradingPair where
  asset_1 : Option PbAssetId
  asset_2 : Option PbAssetId
deriving DecidableEq

/-- `pb::SwapPlaintext`: the structural representation, with optional
`fee` and `trading_pair` and variable-length `b_d` / `pk_d` bytes. -/
structure PbSwapPlaintext where
  t1 : Fin (2 ^ 64)
  t2 : Fin (2 ^ 64)
  fee : Option PbFee
  b_d : List Byte
  pk_d : List Byte
  trading_pair : Option PbTradingPair
deriving DecidableEq

/-- The `anyhow` error messages of the protobuf conversions. -/
inductive PbConversionFailure where
  | invalidDiversifiedBasepoint
  | missingFee
  | errorDecompressingDiversifiedBasepoint
  | invalidDiversifiedPublicKey
  | missingTradingPair
  | missingTradingPairAsset1
  | missingTradingPairAsset2
  | invalidAssetId
deriving DecidableEq

/-- Modelled from the spec: converting a protobuf asset id, which "fails
the conversion if the length mismatches the fixed expected size". -/
def PbAssetId.tryInto (a : PbAssetId) : Except PbConversionFailure AssetId :=
  match AssetId.tryFromSlice a.inner with
  | .ok id => .ok id
  | .error _ => .error .invalidAssetId

/-- `From<AssetId> for pb`: the 32-octet id as variable-length bytes. -/
def AssetId.intoPb (a : AssetId) : PbAssetId := ⟨a.bytes.val⟩

/-- `TryFrom<pb::TradingPair> for TradingPair`. -/
def TradingPair.tryFromPb (tp : PbTradingPair) : Except PbConversionFailure TradingPair :=
  match tp.asset_1 with
  | none => .error .missingTradingPairAsset1
  | some a1 =>
  match a1.tryInto with
  | .error e => .error e
  | .ok asset_1 =>
  match tp.asset_2 with
  | none => .error .missingTradingPairAsset2
  | some a2 =>
  match a2.tryInto with
  | .error e => .error e
  | .ok asset_2 => .ok ⟨asset_1, asset_2⟩

/-- `From<TradingPair> for pb::TradingPair`. -/
def TradingPair.intoPb (tp : TradingPair) : PbTradingPair :=
  ⟨some tp.asset_1.intoPb, some tp.asset_2.intoPb⟩

/-- `TryFrom<pb::SwapPlaintext> for SwapPlaintext`: check the `b_d` length,
then require the fee, decompress `b_d`, check the `pk_d` length, and
require and convert the trading pair. -/
def SwapPlaintext.tryFromPb (plaintext : PbSwapPlaintext) :
    Except PbConversionFailure SwapPlaintext :=
  match tryIntoLen 32 plaintext.b_d with
  | .error _ => .error .invalidDiversifiedBasepoint
  | .ok b_d_bytes =>
  match plaintext.fee with
  | none => .error .missingFee
  | some f =>
  match GroupElement.decompress b_d_bytes with
  | .error _ => .error .errorDecompressingDiversifiedBasepoint
  | .ok b_d =>
  match tryIntoLen 32 plaintext.pk_d with
  | .error _ => .error .invalidDiversifiedPublicKey
  | .ok pk_d_bytes =>
  match plaintext.trading_pair with
  | none => .error .missingTradingPair
  | some tp_pb =>
  match TradingPair.tryFromPb tp_pb with
  | .error e => .error e
  | .ok tp =>
      .ok { t1 := plaintext.t1, t2 := plaintext.t2, fee := ⟨f.amount⟩, b_d,
            pk_d := ⟨pk_d_bytes⟩, trading_pair := tp }

/-- `From<SwapPlaintext> for pb::SwapPlaintext`. -/
def SwapPlaintext.intoPb (plaintext : SwapPlaintext) : PbSwapPlaintext :=
  { t1 := plaintext.t1
    t2 := plaintext.t2
    fee := some ⟨plaintext.fee.amount⟩
    b_d := plaintext.b_d.compress.val
    pk_d := plaintext.pk_d.bytes.val
    trading_pair := some plaintext.trading_pair.intoPb }

theorem setSlice_append' (pre rest s : List Byte) (i : Nat) (h : pre.length = i) :
    setSlice (pre ++ rest) i s = pre ++ (s ++ rest.drop s.length) := by
  unfold setSlice
  subst h
  have hd : (pre ++ rest).drop (pre.length + s.length) = rest.drop s.length := by
    rw [← List.drop_drop, List.drop_left]
  rw [List.take_left, hd, List.append_assoc]

/-- The array-filling and vector-appending encoders of the source produce
the same 153 octets. -/
theorem toBytes153_eq_toBytesVec (p : SwapPlaintext) : p.toBytes153 = p.toBytesVec := by
  have htp := length_tradingPair_to_bytes p.trading_pair
  simp only [SwapPlaintext.toBytes153]
  rw [show (List.replicate SWAP_LEN_BYTES (0 : Byte)).set 0 SWAP_TYPE
      = [SWAP_TYPE] ++ List.replicate 152 0 from rfl]
  rw [setSlice_append' [SWAP_TYPE] _ _ 1 rfl, htp, List.drop_replicate]
  rw [← List.append_assoc]
  rw [setSlice_append' ([SWAP_TYPE] ++ p.trading_pair.to_bytes) _ _ 65 (by simp [htp]),
    length_leBytes, List.drop_replicate]
  rw [← List.append_assoc]
  rw [setSlice_append' _ _ _ 73 (by simp [htp, length_leBytes]),
    length_leBytes, List.drop_replicate]
  rw [← List.append_assoc]
  rw [setSlice_append' _ _ _ 81 (by simp [htp, length_leBytes]),
    length_leBytes, List.drop_replicate]
  rw [← List.append_assoc]
  rw [setSlice_append' _ _ _ 89 (by simp [htp, length_leBytes]),
    p.pk_d.bytes.property, List.drop_replicate]
  rw [← List.append_assoc]
  rw [setSlice_append' _ _ _ 121
      (by simp [htp, length_leBytes, p.pk_d.bytes.property]),
    p.b_d.compress.property, List.drop_replicate]
  simp [SwapPlaintext.toBytesVec, List.append_assoc]

theorem sliceOf_of_parts (l pre mid post : List Byte) (a b : Nat)
    (hsplit : l = pre ++ (mid ++ post)) (h1 : pre.length = a) (h2 : mid.length = b - a) :
    sliceOf l a b = mid := by
  subst hsplit
  exact sliceOf_exact pre mid post a b h1 h2

theorem assetId_tryFromSlice_bytes (a : AssetId) :
    AssetId.tryFromSlice a.bytes.val = .ok a := by
  obtain ⟨⟨bv, hb⟩⟩ := a
  unfold AssetId.tryFromSlice
  rw [dif_pos hb]

theorem u64FromLe_leBytes (v : Fin (2 ^ 64)) (h : (leBytes 8 v.val).length = 8) :
    u64FromLe ⟨leBytes 8 v.val, h⟩ = v := by
  unfold u64FromLe
  exact Fin.ext (parseLE_leBytes 8 v.val (lt_of_lt_of_le v.isLt (by norm_num)))

theorem decompress_mk (e : GroupElement) (h : e.compress.val.length = 32) :
    GroupElement.decompress ⟨e.compress.val, h⟩ = .ok e := by
  rw [show (⟨e.compress.val, h⟩ : Bytes32) = e.compress from Subtype.ext rfl]
  exact decompress_compress e

theorem tradingPair_tryFrom64_to_bytes (tp : TradingPair) (h : tp.to_bytes.length = 64) :
    TradingPair.tryFrom64 ⟨tp.to_bytes, h⟩ = .ok tp := by
  obtain ⟨⟨⟨a1, ha1⟩⟩, ⟨⟨a2, ha2⟩⟩⟩ := tp
  have e1 : sliceOf (a1 ++ a2) 0 32 = a1 := by
    unfold sliceOf
    rw [List.drop_zero]
    exact List.take_left' (by omega)
  have e2 : sliceOf (a1 ++ a2) 32 64 = a2 := by
    unfold sliceOf
    rw [List.drop_left' ha1]
    exact List.take_of_length_le (by omega)
  simp only [TradingPair.tryFrom64, TradingPair.to_bytes, AssetId.to_bytes, e1, e2]
  rw [show AssetId.tryFromSlice a1 = .ok ⟨⟨a1, ha1⟩⟩ from
    assetId_tryFromSlice_bytes ⟨⟨a1, ha1⟩⟩]
  rw [show AssetId.tryFromSlice a2 = .ok ⟨⟨a2, ha2⟩⟩ from
    assetId_tryFromSlice_bytes ⟨⟨a2, ha2⟩⟩]

/-- Parsing the canonical encoding recovers the plaintext. -/
theorem tryFromSlice_toBytesVec (p : SwapPlaintext) :
    SwapPlaintext.tryFromSlice p.toBytesVec = .ok p := by
  have htp := length_tradingPair_to_bytes p.trading_pair
  have hlen := length_toBytesVec p
  have hg : p.toBytesVec.getD 0 0 = SWAP_TYPE := rfl
  have e_tp : sliceOf p.toBytesVec 1 65 = p.trading_pair.to_bytes :=
    sliceOf_of_parts _ [SWAP_TYPE] p.trading_pair.to_bytes
      (leBytes 8 p.t1.val ++ (leBytes 8 p.t2.val
        ++ (leBytes 8 p.fee.amount.val ++ (p.pk_d.bytes.val ++ p.b_d.compress.val))))
      1 65 (by simp [SwapPlaintext.toBytesVec, List.append_assoc]) rfl (by rw [htp])
  have e_t1 : sliceOf p.toBytesVec 65 73 = leBytes 8 p.t1.val :=
    sliceOf_of_parts _ ([SWAP_TYPE] ++ p.trading_pair.to_bytes) (leBytes 8 p.t1.val)
      (leBytes 8 p.t2.val ++ (leBytes 8 p.fee.amount.val
        ++ (p.pk_d.bytes.val ++ p.b_d.compress.val)))
      65 73 (by simp [SwapPlaintext.toBytesVec, List.append_assoc])
      (by simp [htp]) (by simp [length_leBytes])
  have e_t2 : sliceOf p.toBytesVec 73 81 = leBytes 8 p.t2.val :=
    sliceOf_of_parts _
      ([SWAP_TYPE] ++ p.trading_pair.to_bytes ++ leBytes 8 p.t1.val) (leBytes 8 p.t2.val)
      (leBytes 8 p.fee.amount.val ++ (p.pk_d.bytes.val ++ p.b_d.compress.val))
      73 81 (by simp [SwapPlaintext.toBytesVec, List.append_assoc])
      (by simp [htp, length_leBytes]) (by simp [length_leBytes])
  have e_fee : sliceOf p.toBytesVec 81 89 = leBytes 8 p.fee.amount.val :=
    sliceOf_of_parts _
      ([SWAP_TYPE] ++ p.trading_pair.to_bytes ++ leBytes 8 p.t1.val ++ leBytes 8 p.t2.val)
      (leBytes 8 p.fee.amount.val) (p.pk_d.bytes.val ++ p.b_d.compress.val)
      81 89 (by simp [SwapPlaintext.toBytesVec, List.append_assoc])
      (by simp [htp, length_leBytes]) (by simp [length_leBytes])
  have e_pk : sliceOf p.toBytesVec 89 121 = p.pk_d.bytes.val :=
    sliceOf_of_parts _
      ([SWAP_TYPE] ++ p.trading_pair.to_bytes ++ leBytes 8 p.t1.val ++ leBytes 8 p.t2.val
        ++ leBytes 8 p.fee.amount.val)
      p.pk_d.bytes.val p.b_d.compress.val
      89 121 (by simp [SwapPlaintext.toBytesVec, List.append_assoc])
      (by simp [htp, length_leBytes]) (by simp [p.pk_d.bytes.property])
  have e_bd : sliceOf p.toBytesVec 121 153 = p.b_d.compress.val :=
    sliceOf_of_parts _
      ([SWAP_TYPE] ++ p.trading_pair.to_bytes ++ leBytes 8 p.t1.val ++ leBytes 8 p.t2.val
        ++ leBytes 8 p.fee.amount.val ++ p.pk_d.bytes.val)
      p.b_d.compress.val []
      121 153 (by simp [SwapPlaintext.toBytesVec, List.append_assoc])
      (by simp [htp, length_leBytes, p.pk_d.bytes.property])
      (by simp [p.b_d.compress.property])
  simp only [SwapPlaintext.tryFromSlice, hlen, hg, e_tp, e_t1, e_t2, e_fee, e_pk, e_bd,
    SWAP_LEN_BYTES, tryIntoLen, htp, length_leBytes, p.pk_d.bytes.property,
    p.b_d.compress.property, dif_pos, SwapPlaintext.from_parts,
    tradingPair_tryFrom64_to_bytes, decompress_mk, u64FromLe_leBytes]
  simp

/-! ## Concrete sample values -/

/-- A zero 32-octet buffer. -/
def zero32 : Bytes32 := ⟨List.replicate 32 0, List.length_replicate 32 0⟩

/-- A sample trading pair. -/
def sampleTradingPair : TradingPair := ⟨⟨zero32⟩, ⟨zero32⟩⟩

/-- A sample group element. -/
def sampleElement : GroupElement := ⟨1, by decide⟩

/-- A sample transmission key: the compression of `sampleElement`, so key
agreement with it succeeds. -/
def samplePk : KaPublic := ⟨sampleElement.compress⟩

/-- A sample ephemeral secret. -/
def sampleEsk : KaSecret := ⟨⟨1, by decide⟩⟩

/-- A sample outgoing viewing key. -/
def sampleOvk : OutgoingViewingKey := ⟨zero32⟩

/-- A sample swap plaintext (`t1 = 100`, `t2 = 0`, `fee = 3`). -/
def samplePlaintext : SwapPlaintext :=
  { trading_pair := sampleTradingPair
    t1 := ⟨100, by decide⟩
    t2 := ⟨0, by decide⟩
    fee := ⟨⟨3, by decide⟩⟩
    b_d := sampleElement
    pk_d := samplePk }

/-- The swap ciphertext `samplePlaintext.encrypt sampleEsk` produces. -/
def sampleCiphertext : SwapCiphertext :=
  ⟨⟨aeadSeal
      (SwapPlaintext.derive_symmetric_key ⟨(scalarMulGroup 1 sampleElement).compress⟩
        (sampleEsk.diversified_public sampleElement))
      SWAP_ENCRYPTION_NONCE samplePlaintext.toBytesVec, by
    rw [length_aeadSeal]
    simp only [length_toBytesVec]
    decide⟩⟩

/-- A 153-octet buffer with a bad (non-zero) leading type octet. -/
def badTypeBuf : List Byte := 1 :: List.replicate 152 0

/-- A 153-octet buffer with a good type octet whose final 32 octets are
the little-endian encoding of `groupOrder`, which fails decompression. -/
def badBdBuf : List Byte := List.replicate 121 (0 : Byte) ++ leBytes 32 groupOrder

/-- An all-zero 153-octet buffer, which parses successfully. -/
def goodBuf : List Byte := List.replicate 153 (0 : Byte)

/-- The symmetric key `decrypt` derives for `(sampleEsk, samplePk,
sampleElement)`. -/
def sampleDecryptKey : List Byte :=
  SwapPlaintext.derive_symmetric_key ⟨(scalarMulGroup 1 sampleElement).compress⟩
    (sampleEsk.diversified_public sampleElement)

/-- A well-formed AEAD sealing, under the sample decryption key, of the
bad-type 153-octet buffer. -/
def ctBadType : SwapCiphertext :=
  ⟨⟨aeadSeal sampleDecryptKey SWAP_ENCRYPTION_NONCE badTypeBuf, by
    rw [length_aeadSeal]
    simp [badTypeBuf, SWAP_CIPHERTEXT_BYTES]⟩⟩

/-- A well-formed AEAD sealing, under the sample decryption key, of the
bad-basepoint 153-octet buffer. -/
def ctBadBd : SwapCiphertext :=
  ⟨⟨aeadSeal sampleDecryptKey SWAP_ENCRYPTION_NONCE badBdBuf, by
    rw [length_aeadSeal]
    simp [badBdBuf, length_leBytes, SWAP_CIPHERTEXT_BYTES]⟩⟩

/-! ## Claim theorems -/

/-- C10: `SwapPlaintext::from_parts` returns `Ok` of a `SwapPlaintext`
whose fields are exactly the given arguments; it never returns `Err` and
performs no validation of `b_d` or `pk_d` despite its `Result` type. -/
theorem from_parts_is_ok_of_fields (trading_pair : TradingPair) (t1 t2 : Fin (2 ^ 64))
    (fee : Fee) (b_d : GroupElement) (pk_d : KaPublic) :
    SwapPlaintext.from_parts trading_pair t1 t2 fee b_d pk_d
      = .ok { trading_pair, t1, t2, fee, b_d, pk_d } := rfl

/-- C5: the per-swap data key is Blake2b-256 of `shared_secret ‖ epk`, the
OVK wrapping key is Blake2b-256 of `ovk ‖ epk` (no personalization or
length prefix, plain update-stream), and the two derivations differ only
in the first input. -/
theorem kdf_is_blake2b_of_concatenation (shared_secret : KaSharedSecret)
    (ovk : OutgoingViewingKey) (epk : KaPublic) :
    SwapPlaintext.derive_symmetric_key shared_secret epk
        = blake2bHash 32 (shared_secret.bytes.val ++ epk.bytes.val)
      ∧ SwapPlaintext.derive_ock ovk epk
        = blake2bHash 32 (ovk.bytes.val ++ epk.bytes.val)
      ∧ (shared_secret.bytes = ovk.bytes →
          SwapPlaintext.derive_symmetric_key shared_secret epk
            = SwapPlaintext.derive_ock ovk epk) := by
  refine ⟨?_, ?_, fun h => ?_⟩
  · simp [SwapPlaintext.derive_symmetric_key, Blake2bState.update, Blake2bState.finalize]
  · simp [SwapPlaintext.derive_ock, Blake2bState.update, Blake2bState.finalize]
  · simp [SwapPlaintext.derive_symmetric_key, SwapPlaintext.derive_ock,
      Blake2bState.update, Blake2bState.finalize, h]

/-- C5 witness: the two KDFs at equal concrete first inputs coincide. -/
theorem kdf_is_blake2b_of_concatenation_witness :
    SwapPlaintext.derive_symmetric_key ⟨zero32⟩ samplePk
      = SwapPlaintext.derive_ock ⟨zero32⟩ samplePk :=
  (kdf_is_blake2b_of_concatenation ⟨zero32⟩ ⟨zero32⟩ samplePk).2.2 rfl

/-- C3: the canonical byte encoding of a `SwapPlaintext` has length exactly
153, and parsing it back (via `TryFrom<&[u8]>`, hence also via
`TryFrom<[u8; 153]>`) returns `Ok` of an equal plaintext. -/
theorem encode_parse_roundtrip (p : SwapPlaintext) :
    p.toBytes153.length = 153
      ∧ SwapPlaintext.tryFromSlice p.toBytes153 = .ok p
      ∧ SwapPlaintext.tryFrom153
          ⟨p.toBytes153, by rw [toBytes153_eq_toBytesVec]; exact length_toBytesVec p⟩
        = .ok p := by
  refine ⟨?_, ?_, ?_⟩
  · rw [toBytes153_eq_toBytesVec]
    exact length_toBytesVec p
  · rw [toBytes153_eq_toBytesVec]
    exact tryFromSlice_toBytesVec p
  · show SwapPlaintext.tryFromSlice p.toBytes153 = .ok p
    rw [toBytes153_eq_toBytesVec]
    exact tryFromSlice_toBytesVec p

/-- C4: the canonical 153-octet encoding places the constant type octet
`0x00` at offset 0, `asset_1` then `asset_2` at offsets 1..65, `t1`, `t2`
and the fee as little-endian `u64` at 65..73, 73..81 and 81..89, the 32
`pk_d` octets at 89..121 and the 32-octet compression of `b_d` at
121..153. -/
theorem canonical_layout (p : SwapPlaintext) :
    p.toBytes153.length = 153
      ∧ sliceOf p.toBytes153 0 1 = [(0 : Byte)]
      ∧ sliceOf p.toBytes153 1 33 = p.trading_pair.asset_1.to_bytes.val
      ∧ sliceOf p.toBytes153 33 65 = p.trading_pair.asset_2.to_bytes.val
      ∧ sliceOf p.toBytes153 1 65 = p.trading_pair.to_bytes
      ∧ sliceOf p.toBytes153 65 73 = leBytes 8 p.t1.val
      ∧ sliceOf p.toBytes153 73 81 = leBytes 8 p.t2.val
      ∧ sliceOf p.toBytes153 81 89 = leBytes 8 p.fee.amount.val
      ∧ sliceOf p.toBytes153 89 121 = p.pk_d.bytes.val
      ∧ sliceOf p.toBytes153 121 153 = p.b_d.compress.val := by
  have htp := length_tradingPair_to_bytes p.trading_pair
  have ha1 := p.trading_pair.asset_1.bytes.property
  have ha2 := p.trading_pair.asset_2.bytes.property
  rw [toBytes153_eq_toBytesVec]
  refine ⟨length_toBytesVec p, ?_, ?_, ?_, ?_, ?_, ?_, ?_, ?_, ?_⟩
  · exact sliceOf_of_parts _ [] [(0 : Byte)]
      (p.trading_pair.to_bytes ++ (leBytes 8 p.t1.val ++ (leBytes 8 p.t2.val
        ++ (leBytes 8 p.fee.amount.val ++ (p.pk_d.bytes.val ++ p.b_d.compress.val)))))
      0 1 (by simp [SwapPlaintext.toBytesVec, SWAP_TYPE, List.append_assoc]) rfl rfl
  · exact sliceOf_of_parts _ [SWAP_TYPE] p.trading_pair.asset_1.to_bytes.val
      (p.trading_pair.asset_2.to_bytes.val ++ (leBytes 8 p.t1.val ++ (leBytes 8 p.t2.val
        ++ (leBytes 8 p.fee.amount.val ++ (p.pk_d.bytes.val ++ p.b_d.compress.val)))))
      1 33
      (by simp [SwapPlaintext.toBytesVec, TradingPair.to_bytes, List.append_assoc])
      rfl (by simp [AssetId.to_bytes, ha1])
  · exact sliceOf_of_parts _ ([SWAP_TYPE] ++ p.trading_pair.asset_1.to_bytes.val)
      p.trading_pair.asset_2.to_bytes.val
      (leBytes 8 p.t1.val ++ (leBytes 8 p.t2.val
        ++ (leBytes 8 p.fee.amount.val ++ (p.pk_d.bytes.val ++ p.b_d.compress.val))))
      33 65
      (by simp [SwapPlaintext.toBytesVec, TradingPair.to_bytes, List.append_assoc])
      (by simp [AssetId.to_bytes, ha1]) (by simp [AssetId.to_bytes, ha2])
  · exact sliceOf_of_parts _ [SWAP_TYPE] p.trading_pair.to_bytes
      (leBytes 8 p.t1.val ++ (leBytes 8 p.t2.val
        ++ (leBytes 8 p.fee.amount.val ++ (p.pk_d.bytes.val ++ p.b_d.compress.val))))
      1 65 (by simp [SwapPlaintext.toBytesVec, List.append_assoc]) rfl (by rw [htp])
  · exact sliceOf_of_parts _ ([SWAP_TYPE] ++ p.trading_pair.to_bytes) (leBytes 8 p.t1.val)
      (leBytes 8 p.t2.val ++ (leBytes 8 p.fee.amount.val
        ++ (p.pk_d.bytes.val ++ p.b_d.compress.val)))
      65 73 (by simp [SwapPlaintext.toBytesVec, List.append_assoc])
      (by simp [htp]) (by simp [length_leBytes])
  · exact sliceOf_of_parts _
      ([SWAP_TYPE] ++ p.trading_pair.to_bytes ++ leBytes 8 p.t1.val) (leBytes 8 p.t2.val)
      (leBytes 8 p.fee.amount.val ++ (p.pk_d.bytes.val ++ p.b_d.compress.val))
      73 81 (by simp [SwapPlaintext.toBytesVec, List.append_assoc])
      (by simp [htp, length_leBytes]) (by simp [length_leBytes])
  · exact sliceOf_of_parts _
      ([SWAP_TYPE] ++ p.trading_pair.to_bytes ++ leBytes 8 p.t1.val ++ leBytes 8 p.t2.val)
      (leBytes 8 p.fee.amount.val) (p.pk_d.bytes.val ++ p.b_d.compress.val)
      81 89 (by simp [SwapPlaintext.toBytesVec, List.append_assoc])
      (by simp [htp, length_leBytes]) (by simp [length_leBytes])
  · exact sliceOf_of_parts _
      ([SWAP_TYPE] ++ p.trading_pair.to_bytes ++ leBytes 8 p.t1.val ++ leBytes 8 p.t2.val
        ++ leBytes 8 p.fee.amount.val)
      p.pk_d.bytes.val p.b_d.compress.val
      89 121 (by simp [SwapPlaintext.toBytesVec, List.append_assoc])
      (by simp [htp, length_leBytes]) (by simp [p.pk_d.bytes.property])
  · exact sliceOf_of_parts _
      ([SWAP_TYPE] ++ p.trading_pair.to_bytes ++ leBytes 8 p.t1.val ++ leBytes 8 p.t2.val
        ++ leBytes 8 p.fee.amount.val ++ p.pk_d.bytes.val)
      p.b_d.compress.val []
      121 153 (by simp [SwapPlaintext.toBytesVec, List.append_assoc])
      (by simp [htp, length_leBytes, p.pk_d.bytes.property])
      (by simp [p.b_d.compress.property])

/-- Decrypting with the encrypting inputs inverts `encrypt`. -/
theorem decrypt_of_encrypt (p : SwapPlaintext) (esk : KaSecret) (ct : SwapCiphertext)
    (h : p.encrypt esk = some ct) :
    ct.decrypt esk p.pk_d p.b_d = some (.ok p) := by
  unfold SwapPlaintext.encrypt SwapPlaintext.diversified_generator
    SwapPlaintext.transmission_key at h
  cases hka : esk.key_agreement_with p.pk_d with
  | error e =>
      rw [hka] at h
      simp at h
  | ok ss =>
      rw [hka] at h
      simp only [Option.some.injEq] at h
      subst h
      unfold SwapCiphertext.decrypt
      rw [hka]
      simp only [aeadOpen_aeadSeal, length_toBytesVec, SWAP_LEN_BYTES,
        tryFromSlice_toBytesVec]
      rw [if_pos trivial]

/-- C1: for every plaintext and ephemeral secret for which key agreement
with `pk_d` succeeds, decrypting `p.encrypt(esk)` with the same `esk`,
`pk_d` and `b_d` returns `Ok` of a plaintext equal to `p`. -/
theorem encrypt_decrypt_roundtrip (p : SwapPlaintext) (esk : KaSecret)
    (ct : SwapCiphertext) (h : p.encrypt esk = some ct) :
    ct.decrypt esk p.pk_d p.b_d = some (.ok p) :=
  decrypt_of_encrypt p esk ct h

set_option maxRecDepth 20000 in
/-- C1 witness: a concrete swap round trip. -/
theorem encrypt_decrypt_roundtrip_witness :
    sampleCiphertext.decrypt sampleEsk samplePlaintext.pk_d samplePlaintext.b_d
      = some (.ok samplePlaintext) :=
  encrypt_decrypt_roundtrip samplePlaintext sampleEsk sampleCiphertext (by decide)

/-- C6: `encrypt` produces exactly 169 octets and `encrypt_key` exactly 80
octets, both sealed under the fixed all-zero 96-bit (12-octet) nonce. -/
theorem output_sizes_and_fixed_nonce (p : SwapPlaintext) (esk : KaSecret)
    (ovk : OutgoingViewingKey) :
    (p.encrypt_key esk ovk).length = 80
      ∧ (∀ ct : SwapCiphertext, p.encrypt esk = some ct → ct.bytes.val.length = 169)
      ∧ SWAP_ENCRYPTION_NONCE = List.replicate 12 0
      ∧ p.encrypt_key esk ovk
          = aeadSeal (SwapPlaintext.derive_ock ovk (esk.diversified_public p.b_d))
              SWAP_ENCRYPTION_NONCE (p.pk_d.bytes.val ++ esk.to_bytes.val)
      ∧ (∀ ss, esk.key_agreement_with p.pk_d = .ok ss →
          p.encrypt esk = some ⟨⟨aeadSeal
            (SwapPlaintext.derive_symmetric_key ss (esk.diversified_public p.b_d))
            SWAP_ENCRYPTION_NONCE p.toBytesVec, by
              rw [length_aeadSeal]
              simp only [length_toBytesVec]
              decide⟩⟩) := by
  refine ⟨?_, ?_, rfl, rfl, ?_⟩
  · show (aeadSeal _ _ (p.pk_d.bytes.val ++ esk.to_bytes.val)).length = 80
    rw [length_aeadSeal]
    simp [p.pk_d.bytes.property, esk.to_bytes.property]
  · intro ct hct
    unfold SwapPlaintext.encrypt at hct
    cases hka : esk.key_agreement_with p.transmission_key with
    | error e =>
        rw [hka] at hct
        simp at hct
    | ok ss =>
        rw [hka] at hct
        simp only [Option.some.injEq] at hct
        subst hct
        rw [length_aeadSeal]
        simp only [length_toBytesVec]
  · intro ss hka
    unfold SwapPlaintext.encrypt SwapPlaintext.diversified_generator
      SwapPlaintext.transmission_key
    rw [hka]

set_option maxRecDepth 20000 in
/-- C6 witness: concrete 169- and 80-octet outputs. -/
theorem output_sizes_and_fixed_nonce_witness :
    sampleCiphertext.bytes.val.length = 169
      ∧ (samplePlaintext.encrypt_key sampleEsk sampleOvk).length = 80 :=
  ⟨(output_sizes_and_fixed_nonce samplePlaintext sampleEsk sampleOvk).2.1
      sampleCiphertext (by decide),
    (output_sizes_and_fixed_nonce samplePlaintext sampleEsk sampleOvk).1⟩

/-- C2: `encrypt_key` is exactly the AEAD seal, under key
`ock = Blake2b-256(ovk ‖ epk)` and the zero nonce, of the 64-octet message
`pk_d ‖ esk.to_bytes()`; opening it with `(ovk, epk)` recovers `(pk_d,
esk)` exactly, and decrypting the ciphertext with the recovered values
yields the plaintext. -/
theorem encrypt_key_seals_and_recovers (p : SwapPlaintext) (esk : KaSecret)
    (ovk : OutgoingViewingKey) (ct : SwapCiphertext) (h : p.encrypt esk = some ct) :
    p.encrypt_key esk ovk
        = aeadSeal (SwapPlaintext.derive_ock ovk (esk.diversified_public p.b_d))
            SWAP_ENCRYPTION_NONCE (p.pk_d.bytes.val ++ esk.to_bytes.val)
      ∧ SwapPlaintext.derive_ock ovk (esk.diversified_public p.b_d)
          = blake2bHash 32 (ovk.bytes.val ++ (esk.diversified_public p.b_d).bytes.val)
      ∧ (p.pk_d.bytes.val ++ esk.to_bytes.val).length = 64
      ∧ (p.encrypt_key esk ovk).length = 80
      ∧ aeadOpen (SwapPlaintext.derive_ock ovk (esk.diversified_public p.b_d))
            SWAP_ENCRYPTION_NONCE (p.encrypt_key esk ovk)
          = some (p.pk_d.bytes.val ++ esk.to_bytes.val)
      ∧ (p.pk_d.bytes.val ++ esk.to_bytes.val).take 32 = p.pk_d.bytes.val
      ∧ (p.pk_d.bytes.val ++ esk.to_bytes.val).drop 32 = esk.to_bytes.val
      ∧ KaSecret.from_bytes esk.to_bytes = esk
      ∧ ct.decrypt (KaSecret.from_bytes esk.to_bytes) ⟨p.pk_d.bytes⟩ p.b_d
          = some (.ok p) := by
  refine ⟨rfl, ?_, ?_, ?_, ?_, ?_, ?_, from_bytes_to_bytes esk, ?_⟩
  · simp [SwapPlaintext.derive_ock, Blake2bState.update, Blake2bState.finalize]
  · simp [p.pk_d.bytes.property, esk.to_bytes.property]
  · show (aeadSeal _ _ (p.pk_d.bytes.val ++ esk.to_bytes.val)).length = 80
    rw [length_aeadSeal]
    simp [p.pk_d.bytes.property, esk.to_bytes.property]
  · unfold SwapPlaintext.encrypt_key SwapPlaintext.diversified_generator
      SwapPlaintext.transmission_key
    rw [aeadOpen_aeadSeal]
  · exact List.take_left' p.pk_d.bytes.property
  · exact List.drop_left' p.pk_d.bytes.property
  · rw [from_bytes_to_bytes]
    exact decrypt_of_encrypt p esk ct h

set_option maxRecDepth 20000 in
/-- C2 witness: concrete sender recovery and decryption. -/
theorem encrypt_key_seals_and_recovers_witness :
    sampleCiphertext.decrypt (KaSecret.from_bytes sampleEsk.to_bytes)
        ⟨samplePlaintext.pk_d.bytes⟩ samplePlaintext.b_d
      = some (.ok samplePlaintext) :=
  (encrypt_key_seals_and_recovers samplePlaintext sampleEsk sampleOvk sampleCiphertext
    (by decide)).2.2.2.2.2.2.2.2

/-- C9: converting a `SwapPlaintext` to its protobuf structural
representation and back returns `Ok` of an equal plaintext; the fee and
trading-pair fields are populated as `Some`. -/
theorem pb_bridge_roundtrip (p : SwapPlaintext) :
    SwapPlaintext.tryFromPb p.intoPb = .ok p
      ∧ p.intoPb.fee = some ⟨p.fee.amount⟩
      ∧ p.intoPb.trading_pair = some p.trading_pair.intoPb := by
  refine ⟨?_, rfl, rfl⟩
  unfold SwapPlaintext.tryFromPb SwapPlaintext.intoPb
  simp only [TradingPair.tryFromPb, TradingPair.intoPb, AssetId.intoPb,
    PbAssetId.tryInto, assetId_tryFromSlice_bytes, decompress_mk, tryIntoLen,
    p.b_d.compress.property, p.pk_d.bytes.property, dif_pos]

/-- C7: parsing a byte slice rejects any wrong length with
`SwapDeserializationError` (the length check taking priority over the
type-tag check), rejects a non-zero leading octet of a 153-octet buffer
with `SwapTypeUnsupported`, rejects a 153-octet buffer whose final 32
octets fail group decompression with `SwapDeserializationError`, succeeds
otherwise, and the two error kinds are distinguishable. -/
theorem parse_error_taxonomy (b : List Byte) :
    (b.length ≠ 153 → SwapPlaintext.tryFromSlice b = .error .SwapDeserializationError)
      ∧ (b.length = 153 → b.getD 0 0 ≠ SWAP_TYPE →
          SwapPlaintext.tryFromSlice b = .error .SwapTypeUnsupported)
      ∧ (b.length = 153 → b.getD 0 0 = SWAP_TYPE →
          groupOrder ≤ parseLE (sliceOf b 121 153) →
          SwapPlaintext.tryFromSlice b = .error .SwapDeserializationError)
      ∧ (b.length = 153 → b.getD 0 0 = SWAP_TYPE →
          parseLE (sliceOf b 121 153) < groupOrder →
          ∃ p, SwapPlaintext.tryFromSlice b = .ok p)
      ∧ SwapError.SwapDeserializationError ≠ SwapError.SwapTypeUnsupported := by
  have slices : b.length = 153 →
      (sliceOf b 1 65).length = 64 ∧ (sliceOf b 65 73).length = 8
        ∧ (sliceOf b 73 81).length = 8 ∧ (sliceOf b 81 89).length = 8
        ∧ (sliceOf b 89 121).length = 32 ∧ (sliceOf b 121 153).length = 32 := by
    intro hlen
    exact ⟨length_sliceOf b 1 65 (by omega) (by omega),
      length_sliceOf b 65 73 (by omega) (by omega),
      length_sliceOf b 73 81 (by omega) (by omega),
      length_sliceOf b 81 89 (by omega) (by omega),
      length_sliceOf b 89 121 (by omega) (by omega),
      length_sliceOf b 121 153 (by omega) (by omega)⟩
  refine ⟨?_, ?_, ?_, ?_, by decide⟩
  · intro hlen
    unfold SwapPlaintext.tryFromSlice
    rw [if_pos (by simpa [SWAP_LEN_BYTES] using hlen)]
  · intro hlen htag
    unfold SwapPlaintext.tryFromSlice
    rw [if_neg (by simp [SWAP_LEN_BYTES, hlen]), if_pos htag]
  · intro hlen htag hbd
    obtain ⟨l1, l2, l3, l4, l5, l6⟩ := slices hlen
    have la1 : (sliceOf (sliceOf b 1 65) 0 32).length = 32 :=
      length_sliceOf _ 0 32 (by omega) (by omega)
    have la2 : (sliceOf (sliceOf b 1 65) 32 64).length = 32 :=
      length_sliceOf _ 32 64 (by omega) (by omega)
    have hnd : ¬ parseLE (sliceOf b 121 153) < groupOrder := Nat.not_lt.mpr hbd
    unfold SwapPlaintext.tryFromSlice
    rw [if_neg (by simp [SWAP_LEN_BYTES, hlen]), if_neg (by simpa using htag)]
    simp only [tryIntoLen, l1, l2, l3, l4, l5, l6, dif_pos, TradingPair.tryFrom64,
      AssetId.tryFromSlice, la1, la2, GroupElement.decompress, hnd, dif_neg,
      not_false_iff]
  · intro hlen htag hok
    obtain ⟨l1, l2, l3, l4, l5, l6⟩ := slices hlen
    have la1 : (sliceOf (sliceOf b 1 65) 0 32).length = 32 :=
      length_sliceOf _ 0 32 (by omega) (by omega)
    have la2 : (sliceOf (sliceOf b 1 65) 32 64).length = 32 :=
      length_sliceOf _ 32 64 (by omega) (by omega)
    unfold SwapPlaintext.tryFromSlice
    rw [if_neg (by simp [SWAP_LEN_BYTES, hlen]), if_neg (by simpa using htag)]
    simp only [tryIntoLen, l1, l2, l3, l4, l5, l6, dif_pos, TradingPair.tryFrom64,
      AssetId.tryFromSlice, la1, la2, GroupElement.decompress, hok, dif_pos,
      SwapPlaintext.from_parts]
    exact ⟨_, rfl⟩

set_option maxRecDepth 40000 in
/-- C7 witness: concrete buffers hitting each parsing branch. -/
theorem parse_error_taxonomy_witness :
    SwapPlaintext.tryFromSlice [] = .error .SwapDeserializationError
      ∧ SwapPlaintext.tryFromSlice badTypeBuf = .error .SwapTypeUnsupported
      ∧ SwapPlaintext.tryFromSlice badBdBuf = .error .SwapDeserializationError
      ∧ ∃ p, SwapPlaintext.tryFromSlice goodBuf = .ok p :=
  ⟨(parse_error_taxonomy []).1 (by decide),
    (parse_error_taxonomy badTypeBuf).2.1 (by decide) (by decide),
    (parse_error_taxonomy badBdBuf).2.2.1 (by decide) (by decide) (by decide),
    (parse_error_taxonomy goodBuf).2.2.2.1 (by decide) (by decide) (by decide)⟩

set_option maxRecDepth 40000 in
set_option maxHeartbeats 1000000 in
/-- C8 counterexample: a bad-type payload and a bad-basepoint payload parse
to the two distinct error kinds `SwapTypeUnsupported` and
`SwapDeserializationError`, yet `decrypt` returns the very same error
value for the two sealed buffers, so the two parse violations are not
distinguishable by `decrypt`'s caller, and neither error is a
`swap::Error` kind. -/
theorem decrypt_error_collapse_cex :
    SwapPlaintext.tryFromSlice badTypeBuf = .error .SwapTypeUnsupported
      ∧ SwapPlaintext.tryFromSlice badBdBuf = .error .SwapDeserializationError
      ∧ ctBadType.decrypt sampleEsk samplePk sampleElement
          = some (.error .unableToConvertSwapPlaintextBytes)
      ∧ ctBadBd.decrypt sampleEsk samplePk sampleElement
          = some (.error .unableToConvertSwapPlaintextBytes) := by decide

/-- C8 (amended): `decrypt` returns `anyhow` errors, not the `swap::Error`
kinds: an AEAD opening failure yields the decryption-failure error, any
post-decryption parse violation — `SwapTypeUnsupported` and
`SwapDeserializationError` alike — yields the single conversion-failure
error, and a parse success yields the plaintext; the AEAD failure is
distinguishable from the parse failure, but the two parse kinds are not
distinguishable by the caller. -/
theorem decrypt_failure_surface (ct : SwapCiphertext) (esk : KaSecret)
    (pk : KaPublic) (bd : GroupElement) (ss : KaSharedSecret)
    (hka : esk.key_agreement_with pk = .ok ss) :
    (aeadOpen (SwapPlaintext.derive_symmetric_key ss (esk.diversified_public bd))
          SWAP_ENCRYPTION_NONCE ct.bytes.val = none →
        ct.decrypt esk pk bd = some (.error .unableToDecryptSwapCiphertext))
      ∧ (∀ m e, aeadOpen (SwapPlaintext.derive_symmetric_key ss (esk.diversified_public bd))
            SWAP_ENCRYPTION_NONCE ct.bytes.val = some m →
          m.length = 153 → SwapPlaintext.tryFromSlice m = .error e →
          ct.decrypt esk pk bd = some (.error .unableToConvertSwapPlaintextBytes))
      ∧ (∀ m p, aeadOpen (SwapPlaintext.derive_symmetric_key ss (esk.diversified_public bd))
            SWAP_ENCRYPTION_NONCE ct.bytes.val = some m →
          m.length = 153 → SwapPlaintext.tryFromSlice m = .ok p →
          ct.decrypt esk pk bd = some (.ok p))
      ∧ DecryptFailure.unableToDecryptSwapCiphertext
          ≠ DecryptFailure.unableToConvertSwapPlaintextBytes := by
  refine ⟨?_, ?_, ?_, by decide⟩
  · intro hopen
    unfold SwapCiphertext.decrypt
    rw [hka]
    simp only [hopen]
  · intro m e hopen hlen hparse
    unfold SwapCiphertext.decrypt
    rw [hka]
    simp only [hopen, hlen, hparse, SWAP_LEN_BYTES, if_pos]
  · intro m p hopen hlen hparse
    unfold SwapCiphertext.decrypt
    rw [hka]
    simp only [hopen, hlen, hparse, SWAP_LEN_BYTES, if_pos]

set_option maxRecDepth 40000 in
set_option maxHeartbeats 1000000 in
/-- C8 witness: the amended taxonomy at concrete inputs. -/
theorem decrypt_failure_surface_witness :
    ctBadType.decrypt sampleEsk samplePk sampleElement
      = some (.error .unableToConvertSwapPlaintextBytes) :=
  (decrypt_failure_surface ctBadType sampleEsk samplePk sampleElement
      ⟨(scalarMulGroup 1 sampleElement).compress⟩ (by decide)).2.1
    badTypeBuf .SwapTypeUnsupported (by decide) (by decide) (by decide)
